import Mathlib

/-!
Verification of the Openframe frame controller core.

The development shallowly embeds the two core modules:
* `src/process-manager.js` — the child-process supervisor (module state
  `processes` and `processStack`, operations `startProcess`, `killProcess`,
  `getCurrentProcess`, `_exec`);
* `src/controller.js` — the frame controller (`fc.connect`, `fc.updateFrame`,
  `fc.registerNewFrame`, `fc.changeArtwork`).

JS objects keyed by pid are modelled as association lists, JS arrays as
lists, promise outcomes of external collaborators (the REST client, the
downloader, the OS signal delivery) as explicit `Except` parameters, and the
calls a function makes into its collaborators as an emitted event trace.
-/

namespace Openframe

/-! ## ProcessSupervisor: embedding of src/process-manager.js -/

/-- Module state of process-manager.js: `processes` is a JS object mapping a
pid to the spawned child (modelled by the command that spawned it), and
`processStack` is the array of active pids. -/
structure ProcState where
  processes : List (Nat × String)
  processStack : List Nat
deriving DecidableEq

/-- Initial module state: `processes = ` empty object, `processStack = []`. -/
def initState : ProcState := { processes := [], processStack := [] }

/-- JS object property write `obj[k] = v`: overwrite the binding when the key
is present, otherwise add it. -/
def objSet (m : List (Nat × String)) (k : Nat) (v : String) :
    List (Nat × String) :=
  if m.any (fun e => e.1 == k) then
    m.map (fun e => if e.1 == k then (k, v) else e)
  else
    m ++ [(k, v)]

/-- JS `delete obj[k]`: remove the binding for `k`. -/
def objDelete (m : List (Nat × String)) (k : Nat) : List (Nat × String) :=
  m.filter (fun e => e.1 != k)

/-- JS object read `obj[k]`: the bound value, or none (undefined). -/
def objGet (m : List (Nat × String)) (k : Nat) : Option String :=
  (m.find? (fun e => e.1 == k)).map (fun e => e.2)

/-- JS `command.split(' ')` as used by `startProcess`: split the character
sequence on every single space character, keeping empty fields. -/
def jsSplitSpace (s : String) : List String :=
  (s.toList.splitOn ' ').map List.asString

/-- Arguments of the `spawn(command_bin, command_args, ...)` call inside
`startProcess`: the first field of `command.split(' ')` is the binary, the
remaining fields are passed verbatim as the argument array. -/
def startSpawn (command : String) : String × List String :=
  let command_ary := jsSplitSpace command
  let command_bin := command_ary.headD ""
  let command_args := command_ary.tail
  (command_bin, command_args)

/-- Function `startProcess(command)`: spawn a detached child (the OS-chosen
pid is the `pid` parameter), register it under its pid in `processes`, and
push the pid onto `processStack`. -/
def startProcess (pid : Nat) (command : String) (s : ProcState) : ProcState :=
  { processes := objSet s.processes pid command,
    processStack := s.processStack ++ [pid] }

/-- JS `array.indexOf(x)`: the index of the first occurrence, none for -1. -/
def jsIndexOf (l : List Nat) (x : Nat) : Option Nat :=
  match l with
  | [] => none
  | a :: rest => if a = x then some 0 else (jsIndexOf rest x).map (fun i => i + 1)

/-- Fragment `processStack.indexOf(pid)` followed by `splice(stack_idx, 1)`
when the index is not -1, as in `killProcess`. -/
def spliceStack (l : List Nat) (pid : Nat) : List Nat :=
  match jsIndexOf l pid with
  | some i => l.eraseIdx i
  | none => l

/-- Function `killProcess(pid)`: `process.kill(-pid)` is attempted inside a
try/catch whose outcome is the `sig` parameter (a failure is only logged),
then the pid is deleted from `processes` and spliced out of `processStack`.
The result is the new state together with the logged messages; the function
is total, so no outcome is ever raised to the caller. -/
def killProcess (sig : Except String Unit) (pid : Nat) (s : ProcState) :
    ProcState × List String :=
  let logs := match sig with
    | Except.error e => [e]
    | Except.ok _ => []
  ({ processes := objDelete s.processes pid,
     processStack := spliceStack s.processStack pid }, logs)

/-- Function `getCurrentProcess()`: `processStack[0]` when the stack is
nonempty, otherwise null. -/
def getCurrentProcess (s : ProcState) : Option Nat :=
  if s.processStack.length ≠ 0 then s.processStack[0]? else none

/-- Function `killCurrentProcess()`: kill the current process if any. -/
def killCurrentProcess (sig : Except String Unit) (s : ProcState) : ProcState :=
  match getCurrentProcess s with
  | some p => (killProcess sig p s).1
  | none => s

/-- Pids registered in the `processes` mapping. -/
def pidKeys (s : ProcState) : List Nat := s.processes.map Prod.fst

/-- One operation on the module state: a `start` carries the OS-chosen pid of
the spawned child, a `kill` carries the outcome of signal delivery (swallowed
by the try/catch in `killProcess`). -/
inductive Op where
  | start (pid : Nat) (command : String)
  | kill (sig : Except String Unit) (pid : Nat)

/-- Apply one operation to the module state. -/
def applyOp (s : ProcState) : Op → ProcState
  | Op.start pid command => startProcess pid command s
  | Op.kill sig pid => (killProcess sig pid s).1

/-- Run a sequence of operations from a state. -/
def runOps (s : ProcState) : List Op → ProcState
  | [] => s
  | op :: ops => runOps (applyOp s op) ops

/-- OS freshness of a run: every `start` spawns a pid that is not currently a
key of the mapping (the OS never hands out the pid of a live child). -/
def freshRun (s : ProcState) : List Op → Bool
  | [] => true
  | op :: ops =>
      (match op with
       | Op.start pid _ => decide (pid ∉ pidKeys s)
       | Op.kill _ _ => true) && freshRun (applyOp s op) ops

/-- Data-model invariant of the supervisor state: the active sequence has no
duplicates and a pid is in the sequence exactly when it is a mapping key. -/
def GoodState (s : ProcState) : Prop :=
  s.processStack.Nodup ∧ ∀ p : Nat, p ∈ s.processStack ↔ p ∈ pidKeys s

/-! ## Basic lemmas about the supervisor operations -/

/-- Writing a key that is not yet in the object appends the binding. -/
theorem objSet_of_fresh (m : List (Nat × String)) (k : Nat) (v : String)
    (h : k ∉ m.map Prod.fst) : objSet m k v = m ++ [(k, v)] := by
  have hany : m.any (fun e => e.1 == k) = false := by
    simp only [List.any_eq_false, beq_iff_eq]
    intro e he hek
    exact h (List.mem_map.mpr ⟨e, he, hek⟩)
  simp [objSet, hany]

/-- Deleting a key that is not in the object is a no-op. -/
theorem objDelete_of_fresh (m : List (Nat × String)) (k : Nat)
    (h : k ∉ m.map Prod.fst) : objDelete m k = m := by
  apply List.filter_eq_self.mpr
  intro e he
  simp only [bne_iff_ne, ne_eq, decide_eq_true_eq]
  intro hek
  exact h (List.mem_map.mpr ⟨e, he, hek⟩)

/-- Keys of the object after a delete. -/
theorem mem_keys_objDelete (m : List (Nat × String)) (p k : Nat) :
    p ∈ (objDelete m k).map Prod.fst ↔ p ∈ m.map Prod.fst ∧ p ≠ k := by
  simp only [objDelete, List.mem_map, List.mem_filter, bne_iff_ne, ne_eq,
    decide_eq_true_eq]
  constructor
  · rintro ⟨e, ⟨he, hek⟩, hep⟩
    exact ⟨⟨e, he, hep⟩, by rw [← hep]; simpa using hek⟩
  · rintro ⟨⟨e, he, hep⟩, hpk⟩
    exact ⟨e, ⟨he, by rw [hep]; simpa using hpk⟩, hep⟩

/-- Reads of other keys are unaffected by a delete. -/
theorem objGet_objDelete_ne (m : List (Nat × String)) (k q : Nat) (h : q ≠ k) :
    objGet (objDelete m k) q = objGet m q := by
  induction m with
  | nil => rfl
  | cons e m ih =>
    by_cases hek : e.1 = k
    · have h1 : objDelete (e :: m) k = objDelete m k := by
        apply List.filter_cons_of_neg
        simp [hek]
      have h2 : objGet (e :: m) q = objGet m q := by
        unfold objGet
        rw [List.find?_cons_of_neg]
        simp only [beq_iff_eq, hek]
        intro hq
        exact h hq.symm
      rw [h1, h2]
      exact ih
    · have h1 : objDelete (e :: m) k = e :: objDelete m k := by
        apply List.filter_cons_of_pos
        simp [hek]
      rw [h1]
      by_cases heq : e.1 = q
      · unfold objGet
        rw [List.find?_cons_of_pos _ (by simp [heq]),
          List.find?_cons_of_pos _ (by simp [heq])]
      · unfold objGet
        rw [List.find?_cons_of_neg _ (by simp [heq]),
          List.find?_cons_of_neg _ (by simp [heq])]
        exact ih

/-- The indexOf-then-splice fragment removes exactly the first occurrence. -/
theorem spliceStack_eq_erase (l : List Nat) (pid : Nat) :
    spliceStack l pid = l.erase pid := by
  induction l with
  | nil => rfl
  | cons a l ih =>
    by_cases h : a = pid
    · subst h
      simp [spliceStack, jsIndexOf, List.erase_cons_head]
    · have herase : (a :: l).erase pid = a :: l.erase pid :=
        List.erase_cons_tail (by simp [h])
      rw [herase]
      unfold spliceStack
      simp only [jsIndexOf, h, if_false]
      cases hfi : jsIndexOf l pid with
      | none =>
          simp only [Option.map_none']
          rw [← ih]
          unfold spliceStack
          rw [hfi]
      | some i =>
          simp only [Option.map_some']
          rw [List.eraseIdx_cons_succ]
          rw [← ih]
          unfold spliceStack
          rw [hfi]

/-- The state part of killProcess, written out. -/
theorem killProcess_fst (sig : Except String Unit) (pid : Nat) (s : ProcState) :
    (killProcess sig pid s).1 =
      { processes := objDelete s.processes pid,
        processStack := spliceStack s.processStack pid } := rfl

/-- An element is gone after erasing it from a duplicate-free list. -/
theorem nodup_not_mem_erase (l : List Nat) (hnd : l.Nodup) (a : Nat) :
    a ∉ l.erase a := by
  intro hmem
  have hc1 : l.count a ≤ 1 := List.nodup_iff_count_le_one.mp hnd a
  have hc2 : 0 < (l.erase a).count a := List.count_pos_iff.mpr hmem
  rw [List.count_erase_self] at hc2
  omega

/-- Killing a pid that is neither a mapping key nor on the stack leaves the
state unchanged. -/
theorem killProcess_not_tracked (sig : Except String Unit) (pid : Nat)
    (s : ProcState) (hk : pid ∉ pidKeys s) (hs : pid ∉ s.processStack) :
    (killProcess sig pid s).1 = s := by
  rw [killProcess_fst]
  obtain ⟨m, st⟩ := s
  simp only [pidKeys] at hk
  simp only [ProcState.mk.injEq]
  constructor
  · exact objDelete_of_fresh m pid hk
  · rw [spliceStack_eq_erase]
    exact List.erase_of_not_mem hs

/-- Erasing one occurrence of p does not disturb the elements other than p. -/
theorem erase_filter_ne (l : List Nat) (p : Nat) :
    (l.erase p).filter (fun x => x != p) = l.filter (fun x => x != p) := by
  induction l with
  | nil => rfl
  | cons a l ih =>
    by_cases h : a = p
    · subst h
      rw [List.erase_cons_head]
      simp [List.filter_cons]
    · rw [List.erase_cons_tail (by simp [h])]
      simp [List.filter_cons, h, ih]

/-! ## Claim theorems about the ProcessSupervisor -/

/-- C2 (claim): after start(c1) then start(c2) from the initial state with no
intervening kill, getCurrent returns the pid spawned for c1 (the head of the
active sequence), not the pid for c2; in general start appends the new pid to
the tail of the active sequence and getCurrent reads its head. -/
theorem C2_getCurrent_is_fifo_head (p1 p2 : Nat) (c1 c2 : String)
    (hne : p1 ≠ p2) :
    getCurrentProcess (startProcess p2 c2 (startProcess p1 c1 initState)) = some p1 ∧
    getCurrentProcess (startProcess p2 c2 (startProcess p1 c1 initState)) ≠ some p2 ∧
    (∀ (p : Nat) (c : String) (t : ProcState),
      (startProcess p c t).processStack = t.processStack ++ [p]) ∧
    (∀ t : ProcState, getCurrentProcess t = t.processStack.head?) := by
  refine ⟨rfl, ?_, fun p c t => rfl, ?_⟩
  · intro h
    have : p1 = p2 := by
      have h1 : getCurrentProcess (startProcess p2 c2 (startProcess p1 c1 initState))
          = some p1 := rfl
      rw [h1] at h
      exact Option.some.inj h
    exact hne this
  · intro t
    obtain ⟨m, st⟩ := t
    cases st <;> simp [getCurrentProcess]

/-- Witness for C2 at concrete pids and commands. -/
theorem C2_getCurrent_is_fifo_head_witness :
    getCurrentProcess (startProcess 7 "feh b.png"
      (startProcess 5 "feh a.png" initState)) = some 5 :=
  (C2_getCurrent_is_fifo_head 5 7 "feh a.png" "feh b.png" (by decide)).1

/-- C7 (claim): killing a pid not present in the supervisor state is a no-op
that raises nothing to the caller and does not mutate the active sequence; in
general kill removes the pid from the mapping and the active sequence for any
signal outcome, the resulting state does not depend on the signal outcome,
and killing an already-removed pid again leaves the state unchanged. -/
theorem C7_kill_unknown_pid_noop (sig sig' : Except String Unit) (pid : Nat)
    (s : ProcState) (hnd : s.processStack.Nodup) :
    ((pid ∉ pidKeys s ∧ pid ∉ s.processStack) → (killProcess sig pid s).1 = s) ∧
    (killProcess sig pid s).1 = (killProcess sig' pid s).1 ∧
    pid ∉ pidKeys (killProcess sig pid s).1 ∧
    pid ∉ (killProcess sig pid s).1.processStack ∧
    (killProcess sig' pid (killProcess sig pid s).1).1 = (killProcess sig pid s).1 := by
  have h3 : pid ∉ pidKeys (killProcess sig pid s).1 := by
    rw [killProcess_fst]
    simp only [pidKeys]
    intro hmem
    exact ((mem_keys_objDelete s.processes pid pid).1 hmem).2 rfl
  have h4 : pid ∉ (killProcess sig pid s).1.processStack := by
    rw [killProcess_fst]
    simp only
    rw [spliceStack_eq_erase]
    exact nodup_not_mem_erase s.processStack hnd pid
  refine ⟨?_, rfl, h3, h4, ?_⟩
  · rintro ⟨hk, hs⟩
    exact killProcess_not_tracked sig pid s hk hs
  · exact killProcess_not_tracked sig' pid _ h3 h4

/-- Witness for C7: killing the unknown pid 7 in a concrete state. -/
theorem C7_kill_unknown_pid_noop_witness :
    (killProcess (Except.ok ()) 7
        { processes := [(3, "feh a.png")], processStack := [3] }).1 =
      { processes := [(3, "feh a.png")], processStack := [3] } := by
  have h := C7_kill_unknown_pid_noop (Except.ok ()) (Except.error "ESRCH") 7
    { processes := [(3, "feh a.png")], processStack := [3] } (by decide)
  exact h.1 (by decide)

/-- Starting a fresh pid preserves the data-model invariant. -/
theorem goodState_start (pid : Nat) (c : String) (s : ProcState)
    (hg : GoodState s) (hfresh : pid ∉ pidKeys s) :
    GoodState (startProcess pid c s) := by
  obtain ⟨hnd, hiff⟩ := hg
  have hstack : pid ∉ s.processStack := fun h => hfresh ((hiff pid).1 h)
  simp only [pidKeys] at hiff hfresh
  constructor
  · simp only [startProcess]
    rw [List.nodup_append]
    refine ⟨hnd, List.nodup_singleton pid, ?_⟩
    intro a ha hb
    rw [List.mem_singleton] at hb
    subst hb
    exact hstack ha
  · intro p
    simp only [startProcess, pidKeys, objSet_of_fresh s.processes pid c hfresh,
      List.map_append, List.map_cons, List.map_nil, List.mem_append,
      List.mem_singleton]
    exact or_congr (hiff p) Iff.rfl

/-- Killing any pid preserves the data-model invariant. -/
theorem goodState_kill (sig : Except String Unit) (pid : Nat) (s : ProcState)
    (hg : GoodState s) : GoodState (killProcess sig pid s).1 := by
  obtain ⟨hnd, hiff⟩ := hg
  simp only [pidKeys] at hiff
  rw [killProcess_fst]
  constructor
  · simp only
    rw [spliceStack_eq_erase]
    exact hnd.erase pid
  · intro p
    simp only [pidKeys]
    rw [spliceStack_eq_erase, mem_keys_objDelete]
    by_cases hp : p = pid
    · subst hp
      constructor
      · intro h
        exact absurd h (nodup_not_mem_erase s.processStack hnd p)
      · rintro ⟨-, h⟩
        exact absurd rfl h
    · rw [List.mem_erase_of_ne hp, hiff p]
      simp [hp]

/-- Any fresh run from a good state ends in a good state. -/
theorem goodState_runOps (ops : List Op) :
    ∀ s : ProcState, GoodState s → freshRun s ops = true →
      GoodState (runOps s ops) := by
  induction ops with
  | nil =>
      intro s hg _
      exact hg
  | cons op ops ih =>
      intro s hg hf
      cases op with
      | start pid c =>
          simp only [freshRun, Bool.and_eq_true, decide_eq_true_eq] at hf
          exact ih _ (goodState_start pid c s hg hf.1) hf.2
      | kill sig pid =>
          simp only [freshRun, Bool.and_eq_true] at hf
          exact ih _ (goodState_kill sig pid s hg) hf.2

/-- C8 (claim): in every supervisor state reachable from the empty initial
state by any sequence of start and kill operations (the OS handing each start
a pid that is not currently tracked), the active sequence has no duplicates
and a pid appears in it exactly when it has an entry in the pid mapping. In
the model the mapping and the sequence are data of `ProcState`, and `applyOp`
(start or kill) is the only state transformer. -/
theorem C8_stack_matches_mapping (ops : List Op)
    (hf : freshRun initState ops = true) :
    (runOps initState ops).processStack.Nodup ∧
    ∀ p : Nat, p ∈ (runOps initState ops).processStack ↔
      p ∈ pidKeys (runOps initState ops) :=
  goodState_runOps ops initState
    ⟨List.nodup_nil, by intro p; simp [initState, pidKeys]⟩ hf

/-- Witness for C8 on a concrete run: two starts and one kill. -/
theorem C8_stack_matches_mapping_witness :
    (runOps initState [Op.start 5 "feh a.png", Op.start 9 "omxplayer b.mp4",
      Op.kill (Except.error "ESRCH") 5]).processStack.Nodup :=
  (C8_stack_matches_mapping _ (by decide)).1

/-- C10 (claim): kill(p) leaves the mapping entry of every pid q other than p
unchanged and preserves the relative order of the other pids in the active
sequence; the new sequence is a sublist of the old one and at most one
element is removed. -/
theorem C10_kill_frame_effect (sig : Except String Unit) (p q : Nat)
    (s : ProcState) (hqp : q ≠ p) :
    objGet (killProcess sig p s).1.processes q = objGet s.processes q ∧
    (killProcess sig p s).1.processStack.filter (fun x => x != p) =
      s.processStack.filter (fun x => x != p) ∧
    (killProcess sig p s).1.processStack.Sublist s.processStack ∧
    s.processStack.length ≤ (killProcess sig p s).1.processStack.length + 1 := by
  rw [killProcess_fst]
  refine ⟨objGet_objDelete_ne s.processes p q hqp, ?_, ?_, ?_⟩
  · simp only
    rw [spliceStack_eq_erase]
    exact erase_filter_ne s.processStack p
  · simp only
    rw [spliceStack_eq_erase]
    exact List.erase_sublist p s.processStack
  · simp only
    rw [spliceStack_eq_erase]
    by_cases hm : p ∈ s.processStack
    · have hl : 0 < s.processStack.length := List.length_pos_of_mem hm
      rw [List.length_erase_of_mem hm]
      omega
    · rw [List.erase_of_not_mem hm]
      omega

/-- Witness for C10: killing pid 5 leaves pid 9 untouched. -/
theorem C10_kill_frame_effect_witness :
    objGet (killProcess (Except.ok ()) 5
        { processes := [(5, "feh a.png"), (9, "feh b.png")],
          processStack := [5, 9] }).1.processes 9 =
      objGet [(5, "feh a.png"), (9, "feh b.png")] 9 :=
  (C10_kill_frame_effect (Except.ok ()) 5 9
    { processes := [(5, "feh a.png"), (9, "feh b.png")], processStack := [5, 9] }
    (by decide)).1

/-! ## Command splitting (claim C9) -/

/-- Characters of the concatenation of two strings. -/
theorem toList_append (a b : String) : (a ++ b).toList = a.toList ++ b.toList := by
  simp [String.toList, String.data_append]

/-- Join fields with single spaces: the inverse image description of the
commands built by the controller (`start_command + ' ' + path`). -/
def joinSpace : List String → String
  | [] => ""
  | [x] => x
  | x :: y :: rest => x ++ " " ++ joinSpace (y :: rest)

/-- Modelled from the spec: splitting the command on whitespace into tokens
(the nonempty maximal runs between whitespace characters), the first token
being the binary and the remaining tokens the arguments. -/
def specWhitespaceTokens (command : String) : List String :=
  ((command.toList.splitOnP (fun c => c.isWhitespace)).map List.asString).filter
    (fun t => t != "")

/-- Splitting on spaces undoes joining with spaces when no field contains a
space. -/
theorem jsSplitSpace_joinSpace (x : String) (parts : List String)
    (hx : ∀ c ∈ x.toList, c ≠ ' ')
    (hp : ∀ a ∈ parts, ∀ c ∈ a.toList, c ≠ ' ') :
    jsSplitSpace (joinSpace (x :: parts)) = x :: parts := by
  induction parts generalizing x with
  | nil =>
      show ((joinSpace [x]).toList.splitOn ' ').map List.asString = [x]
      have hj : joinSpace [x] = x := rfl
      rw [hj]
      show (x.toList.splitOnP (fun c => c == ' ')).map List.asString = [x]
      rw [List.splitOnP_eq_single]
      · simp only [List.map_cons, List.map_nil]
        rw [String.asString_toList]
      · intro c hc
        simpa using hx c hc
  | cons y parts ih =>
      have h1 : (joinSpace (x :: y :: parts)).toList
          = x.toList ++ ' ' :: (joinSpace (y :: parts)).toList := by
        show (x ++ " " ++ joinSpace (y :: parts)).toList = _
        have hsp : (" " : String).toList = [' '] := by decide
        rw [toList_append, toList_append, hsp, List.append_assoc]
        rfl
      show ((joinSpace (x :: y :: parts)).toList.splitOn ' ').map List.asString
          = x :: y :: parts
      rw [h1]
      show ((x.toList ++ ' ' :: (joinSpace (y :: parts)).toList).splitOnP
        (fun c => c == ' ')).map List.asString = x :: y :: parts
      rw [List.splitOnP_first _ _ (fun c hc => by simpa using hx c hc) ' ' (by simp)]
      simp only [List.map_cons, String.asString_toList]
      have hrest : ∀ a ∈ parts, ∀ c ∈ a.toList, c ≠ ' ' := by
        intro a ha
        exact hp a (List.mem_cons_of_mem y ha)
      have := ih y (hp y (List.mem_cons_self y parts)) hrest
      show x :: ((joinSpace (y :: parts)).toList.splitOnP
        (fun c => c == ' ')).map List.asString = x :: y :: parts
      rw [show ((joinSpace (y :: parts)).toList.splitOnP
        (fun c => c == ' ')).map List.asString
          = jsSplitSpace (joinSpace (y :: parts)) from rfl, this]

/-- C9 (counterexample): on the command holding a tab the code keeps the whole
string as the binary with no arguments, while whitespace tokenization as
claimed would give binary "a" and argument list ["b"]. -/
theorem C9_counterexample :
    ¬ (startSpawn "a\tb" =
      ((specWhitespaceTokens "a\tb").headD "", (specWhitespaceTokens "a\tb").tail)) := by
  decide

/-- C9 (amended): startProcess splits the command on single space characters
only, with no quoting, escaping or expansion: for every command assembled by
joining space-free fields with single spaces, the spawned binary is exactly
the first field and the argument list is exactly the remaining fields.
(Consecutive spaces would produce empty-string arguments and non-space
whitespace is not a delimiter, which is where the claim as stated fails.) -/
theorem C9_split_space_delimited (bin : String) (args : List String)
    (hb : ∀ c ∈ bin.toList, c ≠ ' ')
    (ha : ∀ a ∈ args, ∀ c ∈ a.toList, c ≠ ' ') :
    startSpawn (joinSpace (bin :: args)) = (bin, args) := by
  simp only [startSpawn]
  rw [jsSplitSpace_joinSpace bin args hb ha]
  rfl

/-- Witness for C9 (amended) at a concrete command. -/
theorem C9_split_space_delimited_witness :
    startSpawn (joinSpace ["omxplayer", "--loop", "/tmp/a.mp4"]) =
      ("omxplayer", ["--loop", "/tmp/a.mp4"]) :=
  C9_split_space_delimited "omxplayer" ["--loop", "/tmp/a.mp4"]
    (by decide) (by decide)

/-! ## Controller: embedding of src/controller.js -/

/-- Artwork format record (`artwork._format`). -/
structure Format where
  start_command : String
  end_command : String
  download : Bool
deriving DecidableEq

/-- Artwork record as consumed by the controller. -/
structure Artwork where
  _id : String
  url : String
  _format : Format
deriving DecidableEq

/-- Observable collaborator calls made during `fc.changeArtwork`:
`fetch` is `downloader.downloadFile(url, dest)`, `startArtCall` is the
invocation of the inner `startArt(command)` with the built command,
`execCmd` is `proc_man.exec(command)`, `startProc` is
`proc_man.startProcess(command)`, and `setCurrent` is the assignment
`fc.current_artwork = artwork`. -/
inductive Ev where
  | fetch (url : String) (dest : String)
  | startArtCall (command : String)
  | execCmd (command : String)
  | startProc (command : String)
  | setCurrent (artworkId : String)
deriving DecidableEq

/-- Function `_exec(command)` of process-manager.js, exported as
`proc_man.exec`: run the command through the shell, logging errors. Its
signature accepts the command only, so an extra callback argument passed by
a caller is dropped and never invoked. -/
def procManExec (command : String) : List Ev := [Ev.execCmd command]

/-- Inner function `startArt(command)` of `changeArtwork`: when an artwork is
currently displayed, the code calls
`proc_man.exec(curArt._format.end_command, cb)` where `cb` would start the
new process and update `fc.current_artwork`; `_exec` accepts no callback, so
`cb` never runs and only the end command is dispatched. With no current
artwork the process is started and the pointer updated directly. The result
is the emitted events paired with the new `fc.current_artwork`. -/
def startArt (curArt : Option Artwork) (artwork : Artwork) (command : String) :
    List Ev × Option Artwork :=
  match curArt with
  | some a => (procManExec a._format.end_command, some a)
  | none => ([Ev.startProc command, Ev.setCurrent artwork._id], some artwork)

/-- Characters remaining after the first occurrence of two consecutive
slashes, or none when there is no such occurrence. -/
def dropThroughSlashSlash : List Char → Option (List Char)
  | [] => none
  | '/' :: '/' :: rest => some rest
  | _ :: rest => dropThroughSlashSlash rest

/-- Embeds `url.parse(u).pathname` of the Node url module for ordinary
scheme://host/path URLs: the part from the first slash after the host, with
query and fragment stripped. -/
def urlParsePathname (u : String) : String :=
  let cs := u.toList.takeWhile (fun c => c != '?' && c != '#')
  match dropThroughSlashSlash cs with
  | some hostAndPath =>
      List.asString (hostAndPath.dropWhile (fun c => c != '/'))
  | none => List.asString cs

/-- Embeds `path.basename(p)` of the Node path module: the last path segment,
ignoring trailing slashes. -/
def pathBasename (p : String) : String :=
  let rev := p.toList.reverse.dropWhile (fun c => c == '/')
  List.asString (rev.takeWhile (fun c => c != '/')).reverse

/-- Function `fc.changeArtwork()` with `fc.current_artwork = curArt` and
`frame._current_artwork = artwork`; the downloader promise outcome is the
`downloadResult` parameter. The result is the emitted collaborator calls,
the resulting `fc.current_artwork`, and the error surfaced to the caller:
always none, because `changeArtwork` returns no promise and installs no
rejection handler, so a failed download is dropped. -/
def changeArtwork (curArt : Option Artwork) (artwork : Artwork)
    (downloadResult : Except String String) :
    List Ev × Option Artwork × Option String :=
  if artwork._format.download then
    let file_name := pathBasename (urlParsePathname artwork.url)
    match downloadResult with
    | Except.ok filePath =>
        let command := artwork._format.start_command ++ " " ++ filePath
        let r := startArt curArt artwork command
        (Ev.fetch artwork.url (artwork._id ++ file_name) ::
          Ev.startArtCall command :: r.1, r.2, none)
    | Except.error _ =>
        ([Ev.fetch artwork.url (artwork._id ++ file_name)], curArt, none)
  else
    let command := artwork._format.start_command ++ " " ++ artwork.url
    let r := startArt curArt artwork command
    (Ev.startArtCall command :: r.1, r.2, none)

/-! ## DeviceConnection: embedding of fc.connect / fc.updateFrame /
fc.registerNewFrame -/

/-- Locally stored frame record (`fc.config.ofrc.frame`); only the presence
of the id matters to the connect flow. -/
structure FrameRec where
  id : Option String
deriving DecidableEq

/-- Observable collaborator calls made during `fc.connect`. -/
inductive CEv where
  | findById (id : String)
  | register
  | configSave
  | pluginSync
  | pubsubInit
deriving DecidableEq

/-- Function `fc.updateFrame()`: when a locally stored frame with an id
exists, fetch the authoritative record by that id (on success store and
persist it and trigger the plugin sync); otherwise reject immediately with no
remote call. -/
def updateFrame (frame : Option FrameRec) (findRes : Except Unit FrameRec) :
    List CEv × Except Unit FrameRec :=
  match frame with
  | some f =>
      match f.id with
      | some i =>
          match findRes with
          | Except.ok d =>
              ([CEv.findById i, CEv.configSave, CEv.pluginSync], Except.ok d)
          | Except.error e => ([CEv.findById i], Except.error e)
      | none => ([], Except.error ())
  | none => ([], Except.error ())

/-- Function `fc.registerNewFrame(userId)`: create a brand-new remote frame
record (on success store and persist it and trigger the plugin sync). -/
def registerNewFrame (regRes : Except Unit FrameRec) :
    List CEv × Except Unit FrameRec :=
  match regRes with
  | Except.ok d => ([CEv.register, CEv.configSave, CEv.pluginSync], Except.ok d)
  | Except.error e => ([CEv.register], Except.error e)

/-- Function `fc.connect(userId)`: try `updateFrame`; on success connect
(initialize pubsub); on failure fall back to `registerNewFrame` and then
connect; a registration failure is surfaced to the caller. -/
def connect (frame : Option FrameRec) (findRes regRes : Except Unit FrameRec) :
    List CEv × Except Unit Unit :=
  let r1 := updateFrame frame findRes
  match r1.2 with
  | Except.ok _ => (r1.1 ++ [CEv.pubsubInit], Except.ok ())
  | Except.error _ =>
      let r2 := registerNewFrame regRes
      match r2.2 with
      | Except.ok _ => (r1.1 ++ r2.1 ++ [CEv.pubsubInit], Except.ok ())
      | Except.error _ => (r1.1 ++ r2.1, Except.error ())

/-- Id of the locally stored frame, if any (`frame && frame.id`). -/
def localFrameId (frame : Option FrameRec) : Option String :=
  match frame with
  | some f => f.id
  | none => none

/-- Appending to the same string on the left is injective. -/
theorem string_append_cancel_left (a b c : String) (h : a ++ b = a ++ c) :
    b = c := by
  apply String.ext
  have hd := congrArg String.data h
  rw [String.data_append, String.data_append] at hd
  exact List.append_cancel_left hd

/-! ## Claim theorems about the controller -/

/-- C1 (code behavior at the failing input): with an artwork currently
displayed, changeArtwork dispatches the outgoing end command, but the
callback holding the startProcess call and the pointer update is dropped by
_exec, so no process-start event occurs and the current-artwork pointer
stays on the old artwork: the sequence claimed by the spec (end command,
then start, then pointer update) never happens. -/
theorem C1_no_start_after_end_command :
    changeArtwork
      (some (Artwork.mk "a1" "http://h/a.png"
        (Format.mk "feh" "killall feh" false)))
      (Artwork.mk "a2" "http://h/b.mp4"
        (Format.mk "omxplayer" "killall omxplayer" false))
      (Except.ok "/tmp/unused")
    = ([Ev.startArtCall "omxplayer http://h/b.mp4", Ev.execCmd "killall feh"],
       some (Artwork.mk "a1" "http://h/a.png"
         (Format.mk "feh" "killall feh" false)),
       none) := by
  decide

/-- C3 (counterexample): at a failing fetch the error is not propagated to
the caller of changeArtwork: the promise chain installs no rejection handler
and the function returns no promise, so the caller sees no error. -/
theorem C3_counterexample :
    ¬ ((changeArtwork none
        (Artwork.mk "a3" "http://h/c.png" (Format.mk "feh" "killall feh" true))
        (Except.error "network down")).2.2 = some "network down") := by
  decide

/-- C3 (amended): when the asset fetch fails, no viewer process is started
(the only collaborator call is the fetch itself), the current-artwork
pointer is left unchanged, and the error is not propagated to the caller of
the switch: the rejection is dropped. -/
theorem C3_fetch_failure_dropped (curArt : Option Artwork) (artwork : Artwork)
    (e : String) (hdl : artwork._format.download = true) :
    (changeArtwork curArt artwork (Except.error e)).1 =
      [Ev.fetch artwork.url
        (artwork._id ++ pathBasename (urlParsePathname artwork.url))] ∧
    (changeArtwork curArt artwork (Except.error e)).2.1 = curArt ∧
    (changeArtwork curArt artwork (Except.error e)).2.2 = none := by
  refine ⟨?_, ?_, ?_⟩ <;> simp [changeArtwork, hdl]

/-- Witness for C3 (amended) at a concrete failing fetch. -/
theorem C3_fetch_failure_dropped_witness :
    (changeArtwork none
      (Artwork.mk "a3" "http://h/c.png" (Format.mk "feh" "killall feh" true))
      (Except.error "network down")).2.1 = none :=
  (C3_fetch_failure_dropped none
    (Artwork.mk "a3" "http://h/c.png" (Format.mk "feh" "killall feh" true))
    "network down" rfl).2.1

/-- C5 (claim): with download = true the fetch is the first collaborator
call, its destination name is the artwork id concatenated with the basename
of the URL path, and on fetch success the command built afterwards (handed
to startArt) is exactly start_command, a space, and the fetched local path —
and is distinct from the command built from the original URL whenever the
local path differs from the URL. -/
theorem C5_download_fetch_and_local_path (curArt : Option Artwork)
    (artwork : Artwork) (dl : Except String String)
    (hdl : artwork._format.download = true) :
    (changeArtwork curArt artwork dl).1.head? =
      some (Ev.fetch artwork.url
        (artwork._id ++ pathBasename (urlParsePathname artwork.url))) ∧
    (∀ fp : String, dl = Except.ok fp →
      Ev.startArtCall (artwork._format.start_command ++ " " ++ fp) ∈
        (changeArtwork curArt artwork dl).1.tail ∧
      (∀ c : String, Ev.startArtCall c ∈ (changeArtwork curArt artwork dl).1 →
        c = artwork._format.start_command ++ " " ++ fp) ∧
      (fp ≠ artwork.url → ∀ c : String,
        Ev.startArtCall c ∈ (changeArtwork curArt artwork dl).1 →
        c ≠ artwork._format.start_command ++ " " ++ artwork.url)) := by
  constructor
  · cases dl <;> simp [changeArtwork, hdl]
  · rintro fp rfl
    refine ⟨?_, ?_, ?_⟩
    · cases curArt <;> simp [changeArtwork, hdl, startArt, procManExec]
    · intro c hc
      cases curArt <;>
        simp [changeArtwork, hdl, startArt, procManExec] at hc <;>
        exact hc
    · intro hne c hc heq
      have hcmd : c = artwork._format.start_command ++ " " ++ fp := by
        cases curArt <;>
          simp [changeArtwork, hdl, startArt, procManExec] at hc <;>
          exact hc
      rw [hcmd] at heq
      exact hne (string_append_cancel_left
        (artwork._format.start_command ++ " ") fp artwork.url heq)

/-- Witness for C5 at a concrete artwork and successful fetch. -/
theorem C5_download_fetch_and_local_path_witness :
    (changeArtwork none
      (Artwork.mk "a5" "http://host/img/pic.png?s=1" (Format.mk "feh" "" true))
      (Except.ok "/cache/a5pic.png")).1.head? =
      some (Ev.fetch "http://host/img/pic.png?s=1" "a5pic.png") := by
  have h := C5_download_fetch_and_local_path none
    (Artwork.mk "a5" "http://host/img/pic.png?s=1" (Format.mk "feh" "" true))
    (Except.ok "/cache/a5pic.png") rfl
  rw [h.1]
  decide

/-- C6 (claim): with download = false, no fetch ever happens and the command
built and handed to startArt is exactly start_command, a space, and the
original URL. -/
theorem C6_no_download_uses_url (curArt : Option Artwork) (artwork : Artwork)
    (dl : Except String String) (hdl : artwork._format.download = false) :
    (∀ u d : String, Ev.fetch u d ∉ (changeArtwork curArt artwork dl).1) ∧
    (changeArtwork curArt artwork dl).1.head? =
      some (Ev.startArtCall
        (artwork._format.start_command ++ " " ++ artwork.url)) ∧
    (∀ c : String, Ev.startArtCall c ∈ (changeArtwork curArt artwork dl).1 →
      c = artwork._format.start_command ++ " " ++ artwork.url) := by
  refine ⟨?_, ?_, ?_⟩
  · intro u d
    cases curArt <;> simp [changeArtwork, hdl, startArt, procManExec]
  · cases curArt <;> simp [changeArtwork, hdl, startArt, procManExec]
  · intro c hc
    cases curArt <;>
      simp [changeArtwork, hdl, startArt, procManExec] at hc <;>
      exact hc

/-- Witness for C6 at a concrete artwork. -/
theorem C6_no_download_uses_url_witness :
    (changeArtwork none
      (Artwork.mk "a6" "http://h/v.mp4" (Format.mk "omxplayer" "" false))
      (Except.error "unused")).1.head? =
      some (Ev.startArtCall "omxplayer http://h/v.mp4") := by
  have h := C6_no_download_uses_url none
    (Artwork.mk "a6" "http://h/v.mp4" (Format.mk "omxplayer" "" false))
    (Except.error "unused") rfl
  rw [h.2.1]
  decide

/-- C4 (claim): resolve is always attempted before register: with a local id
the first collaborator call of connect is the remote lookup by that id;
register appears in the trace only when there is no local id or the lookup
failed; and with no local id the flow proceeds directly to register (it is
the first call) with no remote lookup at all. -/
theorem C4_resolve_attempted_before_register (frame : Option FrameRec)
    (findRes regRes : Except Unit FrameRec) :
    (∀ i : String, localFrameId frame = some i →
      (connect frame findRes regRes).1.head? = some (CEv.findById i)) ∧
    (CEv.register ∈ (connect frame findRes regRes).1 →
      localFrameId frame = none ∨ findRes = Except.error ()) ∧
    (localFrameId frame = none →
      (connect frame findRes regRes).1.head? = some CEv.register ∧
      ∀ i : String, CEv.findById i ∉ (connect frame findRes regRes).1) := by
  rcases frame with _ | ⟨_ | i⟩ <;>
    rcases findRes with ⟨⟨⟩⟩ | d <;>
    rcases regRes with ⟨⟨⟩⟩ | d2 <;>
    simp [connect, updateFrame, registerNewFrame, localFrameId]

/-- Witness for C4: a frame record without an id goes straight to register. -/
theorem C4_resolve_attempted_before_register_witness :
    (connect (some (FrameRec.mk none)) (Except.error ())
      (Except.ok (FrameRec.mk (some "f1")))).1.head? = some CEv.register := by
  have h := C4_resolve_attempted_before_register (some (FrameRec.mk none))
    (Except.error ()) (Except.ok (FrameRec.mk (some "f1")))
  exact (h.2.2 rfl).1

end Openframe
